import Mathlib

/-!
Verification of the mcpz core against its specification.

Shallow embedding of the Rust sources:
  * `src/servers/shell.rs`   — command pattern guard and command execution
  * `src/servers/sql.rs`     — SQL statement guard
  * `src/http/handlers.rs`   — origin check and the HTTP POST handler
  * `src/http/session.rs`    — session manager
  * `src/http/tls.rs`        — TLS bootstrap
  * `src/servers/common.rs`  — JSON-RPC dispatcher
  * `src/servers/filesystem.rs` — path sandbox and tool dispatch

Machine strings are Lean `String`s, instants are `Nat` ticks, durations are
`Nat`s in the same unit, HTTP status codes are `Nat`s.  Fallible Rust code
(`Result`, `Option`) becomes `Except`/`Option`.
-/

namespace Mcpz

/-!
Rust `str` primitives, embedded structurally over the character list of a
`String` (so they evaluate by kernel reduction).
-/

/-- Rust `str::starts_with` on a string pattern. -/
def strStartsWith (s pre : String) : Bool :=
  pre.data.isPrefixOf s.data

/-- Rust `str::ends_with` on a string pattern. -/
def strEndsWith (s suf : String) : Bool :=
  suf.data.reverse.isPrefixOf s.data.reverse

/-- Rust `str::trim`: strip leading and trailing whitespace. -/
def strTrim (s : String) : String :=
  ⟨((s.data.dropWhile Char.isWhitespace).reverse.dropWhile
      Char.isWhitespace).reverse⟩

/-- Rust `str::to_uppercase` (character-wise uppercasing; the SQL guard
only compares against ASCII keywords). -/
def strToUpper (s : String) : String :=
  ⟨s.data.map Char.toUpper⟩

/-- Drop the final character (`&pattern[..pattern.len() - 1]` for a pattern
ending in the one-byte `'*'`). -/
def strDropLast (s : String) : String :=
  ⟨s.data.dropLast⟩

/-- First whitespace-delimited token of a string, or `""` when there is none.
Embeds Rust `command.split_whitespace().next().unwrap_or("")`
(`src/servers/shell.rs`, `matches_pattern`). -/
def firstWord (s : String) : String :=
  ⟨(s.data.dropWhile Char.isWhitespace).takeWhile (fun c => ¬ c.isWhitespace)⟩

namespace Shell

/-- Configuration for the shell server (`ShellServerConfig`,
`src/servers/shell.rs`).  Fields not consulted by the guard are kept for
fidelity of the record shape. -/
structure ShellServerConfig where
  working_dir : Option String
  timeout : Nat
  shell : String
  allow_patterns : List String
  deny_patterns : List String
  include_stderr : Bool
  verbose : Bool

/-- `ShellServerConfig::matches_pattern`: a pattern ending in `'*'` matches
when the command's first whitespace-delimited word starts with the pattern
minus its final `'*'`; any other pattern matches by equality with the first
word. -/
def matches_pattern (command : String) (pattern : String) : Bool :=
  let cmd_first_word := firstWord command
  if strEndsWith pattern "*" then
    let prefixPart := strDropLast pattern
    strStartsWith cmd_first_word prefixPart
  else
    cmd_first_word == pattern

/-- `ShellServerConfig::is_command_allowed`: deny patterns are checked first;
an empty allow list allows everything not denied; otherwise some allow
pattern must match. -/
def is_command_allowed (cfg : ShellServerConfig) (command : String) : Bool :=
  if cfg.deny_patterns.any (fun pattern => matches_pattern command pattern) then
    false
  else if cfg.allow_patterns.isEmpty then
    true
  else
    cfg.allow_patterns.any (fun pattern => matches_pattern command pattern)

/-- `ShellCommandResult` (`src/servers/shell.rs`). -/
structure ShellCommandResult where
  command : String
  output : String
  return_code : Int
deriving DecidableEq

/-- Outcome of `std::process::Command::output()` for the spawned shell:
either the process output (stdout, stderr, exit code — `None` when killed by
a signal) or a spawn error message. -/
structure ProcOutput where
  stdout : String
  stderr : String
  code : Option Int

/-- `ShellServer::execute_command` (`src/servers/shell.rs`), instrumented
with the list of shell invocations it performs: `spawn` stands for running
`cfg.shell -c command` in the environment, and the second component of the
result records every `(shell, command)` pair actually spawned. -/
def execute_command (cfg : ShellServerConfig)
    (spawn : String → Except String ProcOutput) (command : String) :
    ShellCommandResult × List (String × String) :=
  if ¬ is_command_allowed cfg command then
    ({ command := command
       output := "Command denied by security policy"
       return_code := -1 }, [])
  else
    match spawn command with
    | .ok output =>
        let combined :=
          if cfg.include_stderr then output.stdout ++ output.stderr
          else output.stdout
        ({ command := command
           output := combined
           return_code := output.code.getD (-1) }, [(cfg.shell, command)])
    | .error e =>
        ({ command := command
           output := "Failed to execute: " ++ e
           return_code := -1 }, [(cfg.shell, command)])

end Shell

namespace Sql

/-- `AccessMode` (`src/servers/sql.rs`). -/
inductive AccessMode where
  | ReadOnly
  | FullAccess
deriving DecidableEq

/-- `DatabaseType` (`src/servers/sql.rs`). -/
inductive DatabaseType where
  | PostgreSQL
  | MySQL
  | SQLite
deriving DecidableEq

/-- `SqlServerConfig` (`src/servers/sql.rs`). -/
structure SqlServerConfig where
  connection_string : String
  access_mode : AccessMode
  timeout : Nat
  verbose : Bool
  db_type : DatabaseType

/-- `SqlServerConfig::is_statement_allowed`: full access allows everything;
read-only mode uppercases the trimmed statement and tests it against a fixed
list of allowed *prefixes*. -/
def is_statement_allowed (cfg : SqlServerConfig) (sql : String) : Bool :=
  if cfg.access_mode = AccessMode.FullAccess then
    true
  else
    let trimmed := strToUpper (strTrim sql)
    strStartsWith trimmed "SELECT"
      || strStartsWith trimmed "WITH"
      || strStartsWith trimmed "EXPLAIN"
      || strStartsWith trimmed "SHOW"
      || strStartsWith trimmed "DESCRIBE"
      || strStartsWith trimmed "DESC"
      || strStartsWith trimmed "PRAGMA"

/-- The read-only keyword set named by the specification. -/
def readOnlyKeywords : List String :=
  ["SELECT", "WITH", "EXPLAIN", "SHOW", "DESCRIBE", "DESC", "PRAGMA"]

/-- The leading keyword of a statement as the specification describes it:
the first whitespace-delimited token of the trimmed statement, compared
case-insensitively (uppercased here). -/
def leadingKeyword (sql : String) : String :=
  firstWord (strToUpper (strTrim sql))

end Sql

namespace Http

/-- `SessionError` (`src/http/session.rs`). -/
inductive SessionError where
  | NotFound
  | Expired
  | NotInitialized
deriving DecidableEq

/-- `validate_origin` (`src/http/handlers.rs`): the `Origin` header value,
when present, is a string (header values that are not valid strings are out
of this model).  Status codes are `Nat`s; rejection is `403`. -/
def validate_origin (origin : Option String) (allowed_origins : List String) :
    Except Nat Unit :=
  match origin with
  | none => .ok ()
  | some o =>
      if strStartsWith o "http://localhost"
          || strStartsWith o "http://127.0.0.1"
          || strStartsWith o "https://localhost"
          || strStartsWith o "https://127.0.0.1" then
        .ok ()
      else if allowed_origins.contains o || allowed_origins.contains "*" then
        .ok ()
      else
        .error 403

/-- `Session` (`src/http/session.rs`).  `Instant`s are `Nat` ticks of a
monotone clock. -/
structure Session where
  id : String
  created_at : Nat
  last_activity : Nat
  initialized : Bool
deriving DecidableEq

/-- `Session::new`: both timestamps are the current instant, not yet
initialized. -/
def Session.new (id : String) (now : Nat) : Session :=
  { id := id, created_at := now, last_activity := now, initialized := false }

/-- The session manager's state (`SessionManager`, `src/http/session.rs`):
the `HashMap<String, Session>` behind the lock is an association list keyed
by session id (no duplicate keys are ever produced by the operations), plus
the fixed TTL. -/
structure SessionManager where
  sessions : List (String × Session)
  ttl : Nat

/-- `HashMap::insert`: replace any existing binding for the key. -/
def storeInsert (store : List (String × Session)) (id : String) (s : Session) :
    List (String × Session) :=
  (id, s) :: store.filter (fun kv => kv.1 ≠ id)

/-- `HashMap::remove`. -/
def storeRemove (store : List (String × Session)) (id : String) :
    List (String × Session) :=
  store.filter (fun kv => kv.1 ≠ id)

/-- `SessionManager::create_session`.  The fresh UUID is an input of the
embedding.  Returns the new state and the id. -/
def create_session (m : SessionManager) (freshId : String) (now : Nat) :
    SessionManager × String :=
  ({ m with sessions := storeInsert m.sessions freshId (Session.new freshId now) },
   freshId)

/-- `SessionManager::validate_session`: `NotFound` when no record exists,
`Expired` when `last_activity.elapsed() > ttl` (elapsed = `now -
last_activity` on the monotone clock), `Ok` otherwise.  Takes only a read
lock; the state is untouched. -/
def validate_session (m : SessionManager) (id : String) (now : Nat) :
    Except SessionError Unit :=
  match m.sessions.lookup id with
  | some session =>
      if now - session.last_activity > m.ttl then .error .Expired
      else .ok ()
  | none => .error .NotFound

/-- `SessionManager::mark_initialized`: set the flag and refresh
`last_activity`. -/
def mark_initialized (m : SessionManager) (id : String) (now : Nat) :
    SessionManager × Except SessionError Unit :=
  match m.sessions.lookup id with
  | some session =>
      let s' := { session with initialized := true, last_activity := now }
      ({ m with sessions := storeInsert m.sessions id s' }, .ok ())
  | none => (m, .error .NotFound)

/-- `SessionManager::touch_session`: refresh `last_activity`. -/
def touch_session (m : SessionManager) (id : String) (now : Nat) :
    SessionManager × Except SessionError Unit :=
  match m.sessions.lookup id with
  | some session =>
      let s' := { session with last_activity := now }
      ({ m with sessions := storeInsert m.sessions id s' }, .ok ())
  | none => (m, .error .NotFound)

/-- `SessionManager::delete_session`: remove if present, report whether a
record existed. -/
def delete_session (m : SessionManager) (id : String) :
    SessionManager × Bool :=
  ({ m with sessions := storeRemove m.sessions id },
   (m.sessions.lookup id).isSome)

/-- `SessionManager::cleanup_expired`: retain the records with
`last_activity.elapsed() <= ttl`, report how many were dropped. -/
def cleanup_expired (m : SessionManager) (now : Nat) :
    SessionManager × Nat :=
  let before := m.sessions.length
  let kept := m.sessions.filter (fun kv => now - kv.2.last_activity ≤ m.ttl)
  ({ m with sessions := kept }, before - kept.length)

/-- The session-manager operations, for stating invariants uniformly. -/
inductive SessionOp where
  | create (freshId : String)
  | validate (id : String)
  | touch (id : String)
  | markInitialized (id : String)
  | delete (id : String)
  | cleanup
deriving DecidableEq

/-- State transition of one session-manager operation at instant `now`
(`validate_session` reads but never writes, so its transition is the
identity on the state). -/
def sessionStep (m : SessionManager) (op : SessionOp) (now : Nat) :
    SessionManager :=
  match op with
  | .create freshId => (create_session m freshId now).1
  | .validate _ => m
  | .touch id => (touch_session m id now).1
  | .markInitialized id => (mark_initialized m id now).1
  | .delete id => (delete_session m id).1
  | .cleanup => (cleanup_expired m now).1

/-- The session time invariant at clock value `c`: every stored record has
`created_at ≤ last_activity` and carries no timestamp from the future. -/
def SessionInv (m : SessionManager) (c : Nat) : Prop :=
  ∀ kv ∈ m.sessions,
    kv.2.created_at ≤ kv.2.last_activity ∧ kv.2.last_activity ≤ c

end Http

/-- `serde_json::Value`.  Numbers are integers (the dispatcher only inspects
integer-valued fields); objects are ordered field lists. -/
inductive Json where
  | null
  | bool (b : Bool)
  | num (n : Int)
  | str (s : String)
  | arr (elems : List Json)
  | obj (fields : List (String × Json))

namespace Json

/-- `Value::get(key)`: member lookup on objects, `None` for any other
value. -/
def get (j : Json) (key : String) : Option Json :=
  match j with
  | .obj fields => fields.lookup key
  | _ => none

/-- `Value::as_str`. -/
def asStr : Json → Option String
  | .str s => some s
  | _ => none

/-- `Value::as_u64`: a non-negative integer. -/
def asU64 : Json → Option Nat
  | .num n => if 0 ≤ n then some n.toNat else none
  | _ => none

/-- `Value::as_bool`. -/
def asBool : Json → Option Bool
  | .bool b => some b
  | _ => none

/-- `Value::as_array`. -/
def asArray : Json → Option (List Json)
  | .arr elems => some elems
  | _ => none

end Json

/-- `params.get(key).and_then(|v| v.as_str())`. -/
def jsonGetStr (j : Json) (key : String) : Option String :=
  (j.get key).bind Json.asStr

namespace Common

/-- `JsonRpcRequest` (`src/servers/common.rs`): `params` defaults to `null`
when absent (serde `#[serde(default)]`). -/
structure JsonRpcRequest where
  jsonrpc : String
  id : Option Json
  method : String
  params : Json

/-- `JsonRpcError` (`src/servers/common.rs`). -/
structure JsonRpcError where
  code : Int
  message : String
deriving DecidableEq

/-- `JsonRpcResponse` (`src/servers/common.rs`). -/
structure JsonRpcResponse where
  jsonrpc : String
  id : Option Json
  result : Option Json
  error : Option JsonRpcError

/-- `JsonRpcResponse::success`. -/
def JsonRpcResponse.success (id : Option Json) (result : Json) :
    JsonRpcResponse :=
  { jsonrpc := "2.0", id := id, result := some result, error := none }

/-- `JsonRpcResponse::error`. -/
def JsonRpcResponse.mkError (id : Option Json) (code : Int) (message : String) :
    JsonRpcResponse :=
  { jsonrpc := "2.0", id := id, result := none
    error := some { code := code, message := message } }

/-- `JsonRpcResponse::parse_error`. -/
def JsonRpcResponse.parse_error (message : String) : JsonRpcResponse :=
  JsonRpcResponse.mkError none (-32700) message

/-- `JsonRpcResponse::method_not_found`. -/
def JsonRpcResponse.method_not_found (id : Option Json) (method : String) :
    JsonRpcResponse :=
  JsonRpcResponse.mkError id (-32601) ("Method not found: " ++ method)

/-- `JsonRpcResponse::internal_error`. -/
def JsonRpcResponse.internal_error (id : Option Json) (message : String) :
    JsonRpcResponse :=
  JsonRpcResponse.mkError id (-32603) message

/-- `McpTool` (`src/servers/common.rs`). -/
structure McpTool where
  name : String
  description : String
  input_schema : Json

/-- `text_content` (`src/servers/common.rs`). -/
def text_content (text : String) : Json :=
  .obj [("content", .arr [.obj [("type", .str "text"), ("text", .str text)]])]

/-- `error_content` (`src/servers/common.rs`). -/
def error_content (message : String) : Json :=
  .obj [("content", .arr [.obj [("type", .str "text"),
                                ("text", .str ("Error: " ++ message))]]),
        ("isError", .bool true)]

/-- One implementation of the `McpServer` trait (`src/servers/common.rs`):
its name, version, tool descriptors and tool-call behaviour (`call_tool`
returns `Err` for Rust `anyhow` failures, carrying the message). -/
structure ServerImpl where
  name : String
  version : String
  tools : List McpTool
  call_tool : String → Json → Except String Json

/-- `McpServer::handle_initialize`. -/
def handle_initialize (S : ServerImpl) : Json :=
  .obj [("protocolVersion", .str "2024-11-05"),
        ("capabilities", .obj [("tools", .obj [])]),
        ("serverInfo", .obj [("name", .str S.name),
                             ("version", .str S.version)])]

/-- `McpServer::handle_tools_list`. -/
def handle_tools_list (S : ServerImpl) : Json :=
  .obj [("tools", .arr (S.tools.map fun t =>
    .obj [("name", .str t.name), ("description", .str t.description),
          ("inputSchema", t.input_schema)]))]

/-- `McpServer::handle_tools_call`: a structurally missing/non-string tool
name is an error; a missing `arguments` member defaults to the empty
object. -/
def handle_tools_call (S : ServerImpl) (params : Json) : Except String Json :=
  match jsonGetStr params "name" with
  | none => .error "Missing tool name"
  | some name =>
      let arguments := (params.get "arguments").getD (.obj [])
      S.call_tool name arguments

/-- `McpServer::handle_request`: the dispatcher.  `none` means "no response"
(a notification). -/
def handle_request (S : ServerImpl) (req : JsonRpcRequest) :
    Option JsonRpcResponse :=
  if req.method = "initialize" then
    some (JsonRpcResponse.success req.id ( handle_initialize S))
  else if req.method = "initialized" ∨ req.method = "notifications/initialized" then
    none
  else if req.method = "tools/list" then
    some (JsonRpcResponse.success req.id (handle_tools_list S))
  else if req.method = "tools/call" then
    match handle_tools_call S req.params with
    | .ok result => some (JsonRpcResponse.success req.id result)
    | .error e => some (JsonRpcResponse.internal_error req.id e)
  else
    some (JsonRpcResponse.method_not_found req.id req.method)

end Common

namespace Filesystem

/-- `EditOperation` (`src/servers/filesystem.rs`): serde names the fields
`oldText` / `newText`. -/
structure EditOperation where
  old_text : String
  new_text : String

/-- `serde_json::from_value::<Vec<EditOperation>>`: an array of objects each
carrying string members `oldText` and `newText` (the serde error text is
abstracted to a fixed message). -/
def parseEditOperation (j : Json) : Except String EditOperation :=
  match jsonGetStr j "oldText", jsonGetStr j "newText" with
  | some o, some n => .ok { old_text := o, new_text := n }
  | _, _ => .error "missing field"

/-- Element-wise parse of the `edits` array. -/
def parseEditOperations (j : Json) : Except String (List EditOperation) :=
  match j.asArray with
  | none => .error "expected an array"
  | some elems => elems.mapM parseEditOperation

/-- The effectful filesystem operations behind `FilesystemServer`'s tool
dispatch (`self.read_file`, `self.write_file`, … in
`src/servers/filesystem.rs`), abstracted as functions from their arguments
to an `anyhow::Result<String>`; plus the configured allowed-directory
display strings that `list_allowed_directories` prints. -/
structure FsEffects where
  read_file : String → Option Nat → Option Nat → Except String String
  read_multiple_files : List String → Except String String
  write_file : String → String → Except String String
  edit_file : String → List EditOperation → Bool → Except String String
  create_directory : String → Except String String
  list_directory : String → Except String String
  list_directory_with_sizes : String → String → Except String String
  directory_tree : String → List String → Except String String
  move_file : String → String → Except String String
  search_files : String → String → List String → Except String String
  get_file_info : String → Except String String
  allowed_directories : List String

/-- `FilesystemServer::list_allowed_directories`
(`src/servers/filesystem.rs`). -/
def list_allowed_directories (eff : FsEffects) : String :=
  "Allowed directories:\n" ++ String.intercalate "\n" eff.allowed_directories

/-- Wrap one effect call the way every tool arm does
(`Ok → text_content`, `Err → error_content`). -/
def wrapCall (r : Except String String) : Except String Json :=
  match r with
  | .ok content => .ok (Common.text_content content)
  | .error e => .ok (Common.error_content e)

/-- `FilesystemServer::call_tool` (`src/servers/filesystem.rs`): the match
on the tool name, embedded as the equivalent sequential name comparison.
Required arguments are extracted with `get(..).and_then(as_str)` and their
absence is an `anyhow` error (which the dispatcher will surface as a
protocol-level error); optional arguments take serde defaults. -/
def call_tool (eff : FsEffects) (name : String) (arguments : Json) :
    Except String Json :=
  if name = "read_file" then
    match jsonGetStr arguments "path" with
    | none => .error "Missing 'path' argument"
    | some path =>
        let head := (arguments.get "head").bind Json.asU64
        let tail := (arguments.get "tail").bind Json.asU64
        wrapCall (eff.read_file path head tail)
  else if name = "read_multiple_files" then
    match (arguments.get "paths").bind Json.asArray with
    | none => .error "Missing 'paths' argument"
    | some elems =>
        let paths := elems.filterMap Json.asStr
        wrapCall (eff.read_multiple_files paths)
  else if name = "write_file" then
    match jsonGetStr arguments "path" with
    | none => .error "Missing 'path' argument"
    | some path =>
        match jsonGetStr arguments "content" with
        | none => .error "Missing 'content' argument"
        | some content => wrapCall (eff.write_file path content)
  else if name = "edit_file" then
    match jsonGetStr arguments "path" with
    | none => .error "Missing 'path' argument"
    | some path =>
        match arguments.get "edits" with
        | none => .error "Missing 'edits' argument"
        | some editsJson =>
            match parseEditOperations editsJson with
            | .error e => .error ("Invalid edits: " ++ e)
            | .ok edits =>
                let dryRun := ((arguments.get "dryRun").bind Json.asBool).getD false
                wrapCall (eff.edit_file path edits dryRun)
  else if name = "create_directory" then
    match jsonGetStr arguments "path" with
    | none => .error "Missing 'path' argument"
    | some path => wrapCall (eff.create_directory path)
  else if name = "list_directory" then
    match jsonGetStr arguments "path" with
    | none => .error "Missing 'path' argument"
    | some path => wrapCall (eff.list_directory path)
  else if name = "list_directory_with_sizes" then
    match jsonGetStr arguments "path" with
    | none => .error "Missing 'path' argument"
    | some path =>
        let sortBy := (jsonGetStr arguments "sortBy").getD "name"
        wrapCall (eff.list_directory_with_sizes path sortBy)
  else if name = "directory_tree" then
    match jsonGetStr arguments "path" with
    | none => .error "Missing 'path' argument"
    | some path =>
        let excludePatterns :=
          (((arguments.get "excludePatterns").bind Json.asArray).map
            (fun elems => elems.filterMap Json.asStr)).getD []
        wrapCall (eff.directory_tree path excludePatterns)
  else if name = "move_file" then
    match jsonGetStr arguments "source" with
    | none => .error "Missing 'source' argument"
    | some source =>
        match jsonGetStr arguments "destination" with
        | none => .error "Missing 'destination' argument"
        | some destination => wrapCall (eff.move_file source destination)
  else if name = "search_files" then
    match jsonGetStr arguments "path" with
    | none => .error "Missing 'path' argument"
    | some path =>
        match jsonGetStr arguments "pattern" with
        | none => .error "Missing 'pattern' argument"
        | some pattern =>
            let excludePatterns :=
              (((arguments.get "excludePatterns").bind Json.asArray).map
                (fun elems => elems.filterMap Json.asStr)).getD []
            wrapCall (eff.search_files path pattern excludePatterns)
  else if name = "get_file_info" then
    match jsonGetStr arguments "path" with
    | none => .error "Missing 'path' argument"
    | some path => wrapCall (eff.get_file_info path)
  else if name = "list_allowed_directories" then
    .ok (Common.text_content (list_allowed_directories eff))
  else
    .ok (Common.error_content ("Unknown tool: " ++ name))

/-- The names handled by `FilesystemServer::call_tool`'s match arms — by
inspection of `src/servers/filesystem.rs` these are exactly the names
declared by `FilesystemServer::tools()` (lines 788–998), i.e. the backend's
tool set. -/
def toolNames : List String :=
  ["read_file", "read_multiple_files", "write_file", "edit_file",
   "create_directory", "list_directory", "list_directory_with_sizes",
   "directory_tree", "move_file", "search_files", "get_file_info",
   "list_allowed_directories"]

/-- The filesystem backend as a `ServerImpl` (`McpServer for
FilesystemServer`): name `"mcpz-filesystem"`; the crate version and the tool
descriptor list are parameters of the embedding. -/
def server (eff : FsEffects) (version : String)
    (tools : List Common.McpTool) : Common.ServerImpl :=
  { name := "mcpz-filesystem"
    version := version
    tools := tools
    call_tool := call_tool eff }

/-!
### Path sandbox (`validate_path`, `src/servers/filesystem.rs`)

Paths are component lists; an absolute path is the list of its components
below the root.  The filesystem environment supplies which absolute paths
exist and the symlink-resolved canonical form of an existing path
(`fs::canonicalize` succeeds exactly on existing paths in this model, and
its only failure is `NotFound`, the case `validate_path` distinguishes).
-/

/-- A candidate path as Rust `Path` sees it: absolute flag plus
components. -/
structure RPath where
  absolute : Bool
  segs : List String
deriving DecidableEq

/-- The filesystem environment `validate_path` runs against. -/
structure FsWorld where
  /-- `std::env::current_dir()`, absolute components. -/
  cwd : List String
  /-- `dirs::home_dir()`, absolute components when known. -/
  home : Option (List String)
  /-- Which absolute paths exist. -/
  pathExists : List String → Bool
  /-- Symlink-resolved canonical form of an existing absolute path
  (`fs::canonicalize`). -/
  canon : List String → List String

/-- `expand_home` (`src/servers/filesystem.rs`): a relative path whose first
component is `~` is re-rooted at the home directory when one is known. -/
def expand_home (w : FsWorld) (p : RPath) : RPath :=
  if ¬ p.absolute ∧ p.segs.head? = some "~" then
    match w.home with
    | some h => { absolute := true, segs := h ++ p.segs.tail }
    | none => p
  else p

/-- Making the expanded path absolute: `current_dir()?.join(&expanded)` for
relative paths. -/
def absolutize (w : FsWorld) (p : RPath) : List String :=
  if p.absolute then p.segs else w.cwd ++ p.segs

/-- `Path::parent` on an absolute path: `None` exactly at the root. -/
def pathParent : List String → Option (List String)
  | [] => none
  | segs => some segs.dropLast

/-- `is_within_allowed` (`src/servers/filesystem.rs`):
`path.starts_with(allowed)` for some allowed root — component-wise prefix. -/
def is_within_allowed (path : List String) (allowed_dirs : List (List String)) :
    Bool :=
  allowed_dirs.any (fun allowed => allowed.isPrefixOf path)

/-- `validate_path` (`src/servers/filesystem.rs`): canonicalize the
absolute candidate; on success check containment and return the canonical
path; when the candidate does not exist, canonicalize its *parent*, check
containment of that, and return the original absolute path; a parent that
does not exist (or a candidate with no parent) is an error. -/
def validate_path (w : FsWorld) (path : RPath)
    (allowed_dirs : List (List String)) : Except String (List String) :=
  let expanded := expand_home w path
  let absolute := absolutize w expanded
  if w.pathExists absolute then
    let resolved := w.canon absolute
    if is_within_allowed resolved allowed_dirs then .ok resolved
    else .error "Access denied - path outside allowed directories"
  else
    match pathParent absolute with
    | some parent =>
        if w.pathExists parent then
          let parent_resolved := w.canon parent
          if is_within_allowed parent_resolved allowed_dirs then .ok absolute
          else .error "Access denied - parent directory outside allowed directories"
        else .error "Parent directory does not exist"
    | none => .error "Cannot access path"

/-- Containment as the specification words it: the canonical path is equal
to, or a descendant of, the allowed root. -/
def equalOrDescendantOf (c r : List String) : Bool :=
  c == r || (r.isPrefixOf c && c != r)

/-- Nearest existing ancestor, with explicit fuel (each `pathParent` step
shortens the path, so `p.length` steps reach the root). -/
def nearestExistingAncestorAux (w : FsWorld) :
    Nat → List String → Option (List String)
  | 0, p => if w.pathExists p then some p else none
  | fuel + 1, p =>
      if w.pathExists p then some p
      else
        match pathParent p with
        | some q => nearestExistingAncestorAux w fuel q
        | none => none

/-- The target's nearest existing ancestor (the path itself when it
exists). -/
def nearestExistingAncestor (w : FsWorld) (p : List String) :
    Option (List String) :=
  nearestExistingAncestorAux w p.length p

/-- The path guard exactly as claim C1 words it (`Modelled from the spec`,
for comparison with `validate_path`): resolve the candidate to an absolute
canonical form and accept iff it is contained in some allowed root; when the
target does not exist, canonicalize its *nearest existing ancestor*,
validate containment on that ancestor, and return the originally-requested
absolute path. -/
def validate_path_claim (w : FsWorld) (path : RPath)
    (allowed_dirs : List (List String)) : Except String (List String) :=
  let absolute := absolutize w (expand_home w path)
  if w.pathExists absolute then
    let resolved := w.canon absolute
    if allowed_dirs.any (equalOrDescendantOf resolved) then .ok resolved
    else .error "rejected: canonical path outside every allowed root"
  else
    match nearestExistingAncestor w absolute with
    | some ancestor =>
        if allowed_dirs.any (equalOrDescendantOf (w.canon ancestor)) then
          .ok absolute
        else .error "rejected: ancestor outside every allowed root"
    | none => .error "rejected: no existing ancestor"

/-- The claim amended to what the code does: only the *immediate parent* of
a missing target is consulted; a missing parent (or a parentless path) is
rejected rather than climbing to a further ancestor. -/
def validate_path_amended (w : FsWorld) (path : RPath)
    (allowed_dirs : List (List String)) : Except String (List String) :=
  let absolute := absolutize w (expand_home w path)
  if w.pathExists absolute then
    let resolved := w.canon absolute
    if allowed_dirs.any (equalOrDescendantOf resolved) then .ok resolved
    else .error "rejected: canonical path outside every allowed root"
  else
    match pathParent absolute with
    | some parent =>
        if w.pathExists parent ∧
            allowed_dirs.any (equalOrDescendantOf (w.canon parent)) = true then
          .ok absolute
        else .error "rejected: parent missing or outside every allowed root"
    | none => .error "rejected: no parent"

/-- Two guard outcomes agree when they accept the same path or both
reject (the claim does not fix rejection messages). -/
def agreesUpToError : Except String (List String) →
    Except String (List String) → Prop
  | .ok a, .ok b => a = b
  | .error _, .error _ => True
  | _, _ => False

end Filesystem

namespace Tls

/-- A PEM certificate, viewed through the fields the bootstrap logic could
inspect: its validity window (`not_before`/`not_after`, seconds since the
epoch as in `time::OffsetDateTime`). -/
structure CertPem where
  not_before : Int
  not_after : Int
deriving DecidableEq

/-- `TlsConfig` (`src/http/tls.rs`). -/
structure TlsConfig where
  cert_pem : CertPem
  key_pem : String
  is_self_signed : Bool
deriving DecidableEq

/-- Contents of the fixed cache location (`<cache_dir>/mcpz/tls`):
`self-signed.crt` and `self-signed.key`, each present or not. -/
structure CacheFS where
  cert_file : Option CertPem
  key_file : Option String
deriving DecidableEq

/-- Environment of the bootstrap: reads of explicitly-given files, the
current time, and the key material the generator would produce. -/
structure TlsEnv where
  read_cert_file : String → Option CertPem
  read_key_file : String → Option String
  now : Int
  fresh_key : String

/-- `TlsConfig::is_cert_expired` (`src/http/tls.rs`): the source returns
`false` unconditionally (its comment reads "Assume not expired for now; the
cert is regenerated on errors"). -/
def is_cert_expired (_cert_pem : CertPem) : Bool :=
  false

/-- Whether a certificate's validity window has actually passed — what
"expired" means in the specification. -/
def actuallyExpired (c : CertPem) (now : Int) : Prop :=
  c.not_after < now

/-- Seconds in the 365-day validity window `generate_self_signed` sets. -/
def validityWindow : Int := 365 * 86400

/-- `TlsConfig::generate_self_signed`: fresh key pair, self-signed
certificate valid from now to now + 365 days. -/
def generate_self_signed (env : TlsEnv) : TlsConfig :=
  { cert_pem := { not_before := env.now, not_after := env.now + validityWindow }
    key_pem := env.fresh_key
    is_self_signed := true }

/-- `TlsConfig::load_from_files`. -/
def load_from_files (env : TlsEnv) (cert_path key_path : String) :
    Except String TlsConfig :=
  match env.read_cert_file cert_path with
  | none => .error ("Failed to read certificate file: " ++ cert_path)
  | some cert_pem =>
      match env.read_key_file key_path with
      | none => .error ("Failed to read key file: " ++ key_path)
      | some key_pem =>
          .ok { cert_pem := cert_pem, key_pem := key_pem, is_self_signed := false }

/-- `TlsConfig::load_or_generate_self_signed`: reuse the cached identity
when both files are present and `is_cert_expired` denies expiry; otherwise
generate a fresh identity and persist it to the cache. -/
def load_or_generate_self_signed (env : TlsEnv) (cache : CacheFS) :
    Except String (TlsConfig × CacheFS) :=
  match cache.cert_file, cache.key_file with
  | some cert_pem, some key_pem =>
      if ¬ is_cert_expired cert_pem then
        .ok ({ cert_pem := cert_pem, key_pem := key_pem, is_self_signed := true },
             cache)
      else
        let config := generate_self_signed env
        .ok (config, { cert_file := some config.cert_pem
                       key_file := some config.key_pem })
  | _, _ =>
      let config := generate_self_signed env
      .ok (config, { cert_file := some config.cert_pem
                     key_file := some config.key_pem })

/-- `TlsConfig::load_or_generate` (`src/http/tls.rs`): both explicit paths
→ load them; neither → cached-or-generated self-signed identity; exactly
one → error. -/
def load_or_generate (env : TlsEnv) (cache : CacheFS)
    (cert_path key_path : Option String) :
    Except String (TlsConfig × CacheFS) :=
  match cert_path, key_path with
  | some cert, some key => (load_from_files env cert key).map (fun c => (c, cache))
  | none, none => load_or_generate_self_signed env cache
  | _, _ => .error "Both --cert and --key must be provided together"

end Tls

namespace Http

/-- The request headers the handlers read: `Origin` and `mcp-session-id`
(`get_session_id`), each already decoded to a string when present. -/
structure Headers where
  origin : Option String
  session_id : Option String

/-- `get_session_id` (`src/http/handlers.rs`). -/
def get_session_id (headers : Headers) : Option String :=
  headers.session_id

/-- `AppState` (`src/http/handlers.rs`): the backend, the session manager
and the configured origin allow-list. -/
structure AppState where
  mcp_server : Common.ServerImpl
  sessions : SessionManager
  allowed_origins : List String

/-- Successful outcome of `handle_post`: HTTP status (200 or 202), the
`mcp-session-id` response header, and the response body when present (the
JSON encoding step is abstracted: the body carries the response value). -/
structure PostOk where
  status : Nat
  session_id : String
  response : Option Common.JsonRpcResponse

/-- Does the response carry the initialize-shape marker
(`result.get("protocolVersion").is_some()`)? -/
def isInitializeResponse (response : Common.JsonRpcResponse) : Bool :=
  match response.result with
  | some result => (result.get "protocolVersion").isSome
  | none => false

/-- Steps 4–6 of `handle_post`: dispatch, notification → 202, otherwise mark
the session initialized when the response has the initialize shape and
reply 200. -/
def postDispatch (server : Common.ServerImpl) (m : SessionManager)
    (session_id : String) (request : Common.JsonRpcRequest) (now : Nat) :
    SessionManager × Except Nat PostOk :=
  match Common.handle_request server request with
  | none =>
      (m, .ok { status := 202, session_id := session_id, response := none })
  | some response =>
      let m' :=
        if isInitializeResponse response then (mark_initialized m session_id now).1
        else m
      (m', .ok { status := 200, session_id := session_id, response := some response })

/-- `handle_post` (`src/http/handlers.rs`).  `body` is the decode outcome of
the request body (`none` = parse failure, → 400).  `freshId` is the UUID
`create_session` would mint.  Returns the session store after the call and
either an HTTP error status or the success outcome. -/
def handle_post (st : AppState) (headers : Headers)
    (body : Option Common.JsonRpcRequest) (freshId : String) (now : Nat) :
    SessionManager × Except Nat PostOk :=
  match validate_origin headers.origin st.allowed_origins with
  | .error code => (st.sessions, .error code)
  | .ok () =>
      match body with
      | none => (st.sessions, .error 400)
      | some request =>
          if request.method = "initialize" then
            let (m', id) := create_session st.sessions freshId now
            postDispatch st.mcp_server m' id request now
          else
            match get_session_id headers with
            | none => (st.sessions, .error 400)
            | some id =>
                match validate_session st.sessions id now with
                | .ok () =>
                    let m' := (touch_session st.sessions id now).1
                    postDispatch st.mcp_server m' id request now
                | .error .NotFound => (st.sessions, .error 404)
                | .error .Expired => (st.sessions, .error 404)
                | .error _ => (st.sessions, .error 500)

end Http

namespace Examples

/-- C1 world: only the root and `/sandbox` exist; no symlinks. -/
def fsW : Filesystem.FsWorld :=
  { cwd := []
    home := none
    pathExists := fun p => p == ([] : List String) || p == ["sandbox"]
    canon := id }

/-- C1 candidate: `/sandbox/a/b`, two levels below the deepest existing
directory. -/
def pathW : Filesystem.RPath :=
  { absolute := true, segs := ["sandbox", "a", "b"] }

/-- C1 allowed roots: just `/sandbox`. -/
def rootsW : List (List String) := [["sandbox"]]

/-- C3 read-only configuration. -/
def cfgRO : Sql.SqlServerConfig :=
  { connection_string := "sqlite::memory:"
    access_mode := .ReadOnly
    timeout := 30
    verbose := false
    db_type := .SQLite }

/-- C5 filesystem effects: every effectful operation is unused by the
inputs exercised here; one allowed directory is configured. -/
def effW : Filesystem.FsEffects :=
  { read_file := fun _ _ _ => .error "unused"
    read_multiple_files := fun _ => .error "unused"
    write_file := fun _ _ => .error "unused"
    edit_file := fun _ _ _ => .error "unused"
    create_directory := fun _ => .error "unused"
    list_directory := fun _ => .error "unused"
    list_directory_with_sizes := fun _ _ => .error "unused"
    directory_tree := fun _ _ => .error "unused"
    move_file := fun _ _ => .error "unused"
    search_files := fun _ _ _ => .error "unused"
    get_file_info := fun _ => .error "unused"
    allowed_directories := ["/sandbox"] }

/-- The filesystem backend over `effW`. -/
def serverW : Common.ServerImpl := Filesystem.server effW "0.0.0" []

/-- C5: a `tools/call` whose params carry a known tool name but no
`arguments` member. -/
def reqMissingArgs : Common.JsonRpcRequest :=
  { jsonrpc := "2.0"
    id := some (.num 1)
    method := "tools/call"
    params := .obj [("name", .str "list_allowed_directories")] }

/-- C5 witness: a `tools/call` with no tool name at all. -/
def reqNoName : Common.JsonRpcRequest :=
  { jsonrpc := "2.0"
    id := some (.num 2)
    method := "tools/call"
    params := .obj [("arguments", .obj [])] }

/-- C5 witness: a `tools/call` naming a tool outside the backend's tool
set. -/
def reqUnknownTool : Common.JsonRpcRequest :=
  { jsonrpc := "2.0"
    id := some (.num 4)
    method := "tools/call"
    params := .obj [("name", .str "frobnicate"), ("arguments", .obj [])] }

/-- C6 witness: a session whose last activity (instant 0) lies further in
the past than the 5-tick TTL at instant 100. -/
def mgrExpired : Http.SessionManager :=
  { sessions := [("sess-1",
      { id := "sess-1", created_at := 0, last_activity := 0, initialized := true })]
    ttl := 5 }

/-- C6 witness application state. -/
def stW : Http.AppState :=
  { mcp_server := serverW, sessions := mgrExpired, allowed_origins := [] }

/-- C6 witness headers: no Origin, the expired session's id. -/
def headersW : Http.Headers :=
  { origin := none, session_id := some "sess-1" }

/-- C6 witness request: `tools/list` (not `initialize`). -/
def reqListW : Common.JsonRpcRequest :=
  { jsonrpc := "2.0", id := some (.num 3), method := "tools/list", params := .null }

/-- C7 environment: instant 1000; explicit file reads unused. -/
def tlsEnvW : Tls.TlsEnv :=
  { read_cert_file := fun _ => none
    read_key_file := fun _ => none
    now := 1000
    fresh_key := "fresh-key" }

/-- C7 failing input: a cached certificate whose validity window
(0 .. 100) has passed at instant 1000. -/
def expiredCert : Tls.CertPem := { not_before := 0, not_after := 100 }

/-- C7 cache with both files present, the certificate expired. -/
def cacheW : Tls.CacheFS :=
  { cert_file := some expiredCert, key_file := some "cached-key" }

/-- C9 witness store: one session created at 1, touched at 3, under clock
5. -/
def mgrInv : Http.SessionManager :=
  { sessions := [("a",
      { id := "a", created_at := 1, last_activity := 3, initialized := false })]
    ttl := 10 }

/-- C10 witness configuration: allow everything except `rm*`. -/
def cfgShellW : Shell.ShellServerConfig :=
  { working_dir := none
    timeout := 30
    shell := "/bin/sh"
    allow_patterns := ["*"]
    deny_patterns := ["rm*"]
    include_stderr := true
    verbose := false }

end Examples

end Mcpz

/-! ## Theorems -/

open Mcpz

/-- Helper: a successful `List.lookup` exhibits a member of the list. -/
theorem lookup_mem {β : Type} {l : List (String × β)} {id : String} {s : β}
    (h : l.lookup id = some s) : (id, s) ∈ l := by
  induction l with
  | nil => simp [List.lookup] at h
  | cons hd tl ih =>
      rw [List.lookup] at h
      split at h
      · next heq =>
          cases h
          have hk : id = hd.1 := eq_of_beq heq
          have hpair : (id, hd.2) = hd := by cases hd; simp_all
          rw [hpair]
          exact List.mem_cons_self _ _
      · exact List.mem_cons_of_mem _ (ih h)

/-- Helper: nested two-test acceptance collapses to a disjunction. -/
theorem ifif_ok_iff (c₁ c₂ : Bool) :
    ((if c₁ then Except.ok () else if c₂ then Except.ok () else Except.error 403 :
        Except Nat Unit) = .ok ()) ↔ (c₁ = true ∨ c₂ = true) := by
  cases c₁ <;> cases c₂ <;> simp

/-- Helper: nested two-test rejection is the negated disjunction. -/
theorem ifif_err_iff (c₁ c₂ : Bool) :
    ((if c₁ then Except.ok () else if c₂ then Except.ok () else Except.error 403 :
        Except Nat Unit) = .error 403) ↔ ¬ (c₁ = true ∨ c₂ = true) := by
  cases c₁ <;> cases c₂ <;> simp

/-- C2: the origin check passes with no Origin header; with a header it
passes exactly when the origin starts with one of the four loopback
prefixes (regardless of the allow-list) or appears verbatim in the
allow-list or the allow-list contains `"*"`; every other origin is rejected
with status 403. -/
theorem validate_origin_correct :
    (∀ allowed : List String, Http.validate_origin none allowed = .ok ()) ∧
    (∀ (o : String) (allowed : List String),
      Http.validate_origin (some o) allowed = .ok () ↔
        (strStartsWith o "http://localhost" = true ∨
         strStartsWith o "http://127.0.0.1" = true ∨
         strStartsWith o "https://localhost" = true ∨
         strStartsWith o "https://127.0.0.1" = true ∨
         o ∈ allowed ∨ "*" ∈ allowed)) ∧
    (∀ (o : String) (allowed : List String),
      Http.validate_origin (some o) allowed = .error 403 ↔
        ¬ (strStartsWith o "http://localhost" = true ∨
           strStartsWith o "http://127.0.0.1" = true ∨
           strStartsWith o "https://localhost" = true ∨
           strStartsWith o "https://127.0.0.1" = true ∨
           o ∈ allowed ∨ "*" ∈ allowed)) := by
  refine ⟨fun _ => rfl, ?_, ?_⟩ <;>
    · intro o allowed
      simp only [Http.validate_origin]
      first
        | rw [ifif_ok_iff]
        | rw [ifif_err_iff]
      simp [List.contains, or_assoc]

/-- C3 counterexample: in read-only mode the statement
`"WITHDRAW funds FROM accounts"` is allowed although its leading keyword
`WITHDRAW` is not in the read-only set — the code tests string *prefixes*
(`WITH` matches), not the leading keyword. -/
theorem sql_statement_claim_false :
    Sql.is_statement_allowed Examples.cfgRO "WITHDRAW funds FROM accounts" = true ∧
    Sql.leadingKeyword "WITHDRAW funds FROM accounts" ∉ Sql.readOnlyKeywords ∧
    Examples.cfgRO.access_mode ≠ Sql.AccessMode.FullAccess := by
  refine ⟨by decide, by decide, by decide⟩

/-- C3 amended: `is_statement_allowed` returns true in full-access mode; in
read-only mode it returns true iff the trimmed statement, uppercased,
*begins with* one of SELECT, WITH, EXPLAIN, SHOW, DESCRIBE, DESC, PRAGMA —
a case-insensitive prefix test on the statement text, not a test of its
leading keyword. -/
theorem is_statement_allowed_amended :
    ∀ (cfg : Sql.SqlServerConfig) (sql : String),
      Sql.is_statement_allowed cfg sql = true ↔
        (cfg.access_mode = Sql.AccessMode.FullAccess ∨
         ∃ k ∈ Sql.readOnlyKeywords,
           strStartsWith (strToUpper (strTrim sql)) k = true) := by
  intro cfg sql
  cases hm : cfg.access_mode <;>
    simp [Sql.is_statement_allowed, hm, Sql.readOnlyKeywords, or_assoc]

/-- C4: a command is allowed iff no deny pattern matches it and the allow
list is empty or some allow pattern matches it (deny takes precedence);
a pattern ending in `'*'` matches iff the command's first
whitespace-delimited token starts with the pattern minus the `'*'`, and any
other pattern matches iff it equals the first token. -/
theorem is_command_allowed_correct :
    ∀ (cfg : Shell.ShellServerConfig) (command : String),
      (Shell.is_command_allowed cfg command = true ↔
        ((∀ p ∈ cfg.deny_patterns, Shell.matches_pattern command p = false) ∧
         (cfg.allow_patterns = [] ∨
          ∃ p ∈ cfg.allow_patterns, Shell.matches_pattern command p = true))) ∧
      (∀ pat : String,
        Shell.matches_pattern command pat = true ↔
          if strEndsWith pat "*" then
            strStartsWith (firstWord command) (strDropLast pat) = true
          else firstWord command = pat) := by
  intro cfg command
  constructor
  · simp only [Shell.is_command_allowed]
    by_cases hd : cfg.deny_patterns.any (fun p => Shell.matches_pattern command p)
    · simp only [hd, if_true]
      simp only [List.any_eq_true] at hd
      obtain ⟨p, hp, hmatch⟩ := hd
      constructor
      · intro h; exact absurd h (by simp)
      · rintro ⟨hall, -⟩
        have := hall p hp
        rw [this] at hmatch
        exact absurd hmatch (by simp)
    · simp only [hd, if_false]
      have hd' : ∀ p ∈ cfg.deny_patterns, Shell.matches_pattern command p = false := by
        intro p hp
        by_contra hne
        exact hd (List.any_eq_true.2 ⟨p, hp, by simpa using hne⟩)
      by_cases he : cfg.allow_patterns.isEmpty
      · simp only [he, if_true]
        constructor
        · intro _
          exact ⟨hd', Or.inl (List.isEmpty_iff.1 he)⟩
        · intro _
          rfl
      · simp only [he, if_false]
        constructor
        · intro hany
          obtain ⟨p, hp, hmatch⟩ := List.any_eq_true.1 hany
          exact ⟨hd', Or.inr ⟨p, hp, hmatch⟩⟩
        · rintro ⟨-, h | ⟨p, hp, hmatch⟩⟩
          · exact absurd (List.isEmpty_iff.2 h) he
          · exact List.any_eq_true.2 ⟨p, hp, hmatch⟩
  · intro pat
    simp only [Shell.matches_pattern]
    split
    · exact Iff.rfl
    · exact beq_iff_eq

/-- C10: a command the guard rejects is answered immediately with the fixed
denial result (return code −1, fixed text) and no shell process is ever
spawned; the configured shell is spawned exactly for guard-allowed
commands. -/
theorem execute_command_denied_no_spawn :
    ∀ (cfg : Shell.ShellServerConfig)
      (spawn : String → Except String Shell.ProcOutput) (command : String),
      (Shell.is_command_allowed cfg command = false →
        Shell.execute_command cfg spawn command =
          ({ command := command, output := "Command denied by security policy",
             return_code := -1 }, [])) ∧
      ((Shell.execute_command cfg spawn command).2 ≠ [] →
        Shell.is_command_allowed cfg command = true) ∧
      (Shell.is_command_allowed cfg command = true →
        (Shell.execute_command cfg spawn command).2 = [(cfg.shell, command)]) := by
  intro cfg spawn command
  refine ⟨?_, ?_, ?_⟩
  · intro h
    simp [Shell.execute_command, h]
  · intro h
    by_contra hfalse
    rw [Bool.not_eq_true] at hfalse
    exact h (by simp [Shell.execute_command, hfalse])
  · intro h
    cases hs : spawn command <;> simp [Shell.execute_command, h, hs]

/-- C10 witness: with allow `["*"]` and deny `["rm*"]`, the command
`"rm -rf /"` is denied and answered with the fixed result and no spawn. -/
theorem execute_command_denied_no_spawn_witness :
    Shell.is_command_allowed Examples.cfgShellW "rm -rf /" = false ∧
    Shell.execute_command Examples.cfgShellW (fun _ => .error "unused") "rm -rf /" =
      ({ command := "rm -rf /", output := "Command denied by security policy",
         return_code := -1 }, []) :=
  ⟨by decide,
   (execute_command_denied_no_spawn Examples.cfgShellW
     (fun _ => .error "unused") "rm -rf /").1 (by decide)⟩

/-- C8: `validate_session` answers `NotFound` iff no record exists,
`Expired` iff a record exists with `now − last_activity > ttl`, `Ok` iff a
record exists with `now − last_activity ≤ ttl`; as a state transition it is
the identity (it only reads the store). -/
theorem validate_session_correct :
    ∀ (m : Http.SessionManager) (id : String) (now : Nat),
      (Http.validate_session m id now = .error .NotFound ↔
        m.sessions.lookup id = none) ∧
      (Http.validate_session m id now = .error .Expired ↔
        ∃ s, m.sessions.lookup id = some s ∧ now - s.last_activity > m.ttl) ∧
      (Http.validate_session m id now = .ok () ↔
        ∃ s, m.sessions.lookup id = some s ∧ now - s.last_activity ≤ m.ttl) ∧
      Http.sessionStep m (.validate id) now = m := by
  intro m id now
  refine ⟨?_, ?_, ?_, rfl⟩ <;>
    · simp only [Http.validate_session]
      cases h : m.sessions.lookup id with
      | none => simp
      | some s =>
          by_cases hexp : now - s.last_activity > m.ttl <;>
            simp [hexp] <;> omega

/-- C9: the session time invariant — every stored record satisfies
`created_at ≤ last_activity`, with no timestamp beyond the clock — is
preserved by every session-manager operation, provided the clock does not
run backwards. -/
theorem sessionStep_preserves_invariant :
    ∀ (m : Http.SessionManager) (op : Http.SessionOp) (now c : Nat),
      Http.SessionInv m c → c ≤ now →
      Http.SessionInv (Http.sessionStep m op now) now := by
  intro m op now c hinv hle
  have weaken : Http.SessionInv m now := fun kv hm =>
    ⟨(hinv kv hm).1, le_trans (hinv kv hm).2 hle⟩
  cases op with
  | create freshId =>
      intro kv hm
      simp only [Http.sessionStep, Http.create_session, Http.storeInsert] at hm
      rcases List.mem_cons.1 hm with h | h
      · subst h
        exact ⟨le_refl _, le_refl _⟩
      · exact weaken kv (List.mem_of_mem_filter h)
  | validate id =>
      exact weaken
  | touch id =>
      intro kv hm
      simp only [Http.sessionStep, Http.touch_session] at hm
      cases h : m.sessions.lookup id with
      | none => rw [h] at hm; exact weaken kv hm
      | some s =>
          rw [h] at hm
          simp only [Http.storeInsert] at hm
          rcases List.mem_cons.1 hm with heq | hmem
          · subst heq
            have hs := hinv (id, s) (lookup_mem h)
            exact ⟨le_trans hs.1 (le_trans hs.2 hle), le_refl _⟩
          · exact weaken kv (List.mem_of_mem_filter hmem)
  | markInitialized id =>
      intro kv hm
      simp only [Http.sessionStep, Http.mark_initialized] at hm
      cases h : m.sessions.lookup id with
      | none => rw [h] at hm; exact weaken kv hm
      | some s =>
          rw [h] at hm
          simp only [Http.storeInsert] at hm
          rcases List.mem_cons.1 hm with heq | hmem
          · subst heq
            have hs := hinv (id, s) (lookup_mem h)
            exact ⟨le_trans hs.1 (le_trans hs.2 hle), le_refl _⟩
          · exact weaken kv (List.mem_of_mem_filter hmem)
  | delete id =>
      intro kv hm
      simp only [Http.sessionStep, Http.delete_session, Http.storeRemove] at hm
      exact weaken kv (List.mem_of_mem_filter hm)
  | cleanup =>
      intro kv hm
      simp only [Http.sessionStep, Http.cleanup_expired] at hm
      exact weaken kv (List.mem_of_mem_filter hm)

/-- C9 witness: the invariant holds for a store with one session
(created 1, touched 3) at clock 5 and is preserved by a `touch` at
instant 10. -/
theorem sessionStep_preserves_invariant_witness :
    Http.SessionInv Examples.mgrInv 5 ∧ 5 ≤ 10 ∧
    Http.SessionInv (Http.sessionStep Examples.mgrInv (.touch "a") 10) 10 :=
  ⟨by unfold Http.SessionInv; decide, by decide,
   sessionStep_preserves_invariant Examples.mgrInv (.touch "a") 10 5
     (by unfold Http.SessionInv; decide) (by decide)⟩

/-- C6: a `POST` whose origin passes, whose body decodes, whose method is
not `initialize` and which carries a session-id header is answered with the
same client-visible status 404 whether the session manager reports
`NotFound` or `Expired` — the two internally distinct conditions are
externally indistinguishable. -/
theorem handle_post_session_404 :
    ∀ (st : Http.AppState) (headers : Http.Headers)
      (req : Common.JsonRpcRequest) (freshId sid : String) (now : Nat),
      Http.validate_origin headers.origin st.allowed_origins = .ok () →
      req.method ≠ "initialize" →
      headers.session_id = some sid →
      (Http.validate_session st.sessions sid now = .error .NotFound ∨
       Http.validate_session st.sessions sid now = .error .Expired) →
      (Http.handle_post st headers (some req) freshId now).2 = .error 404 := by
  intro st headers req freshId sid now horigin hmethod hsid hval
  simp only [Http.handle_post, horigin, Http.get_session_id, hsid, hmethod,
    if_false]
  rcases hval with h | h <;> rw [h]

/-- C6 witness: with one session whose last activity was 95 ticks beyond
the 5-tick TTL, a `tools/list` POST carrying its id receives status 404. -/
theorem handle_post_session_404_witness :
    (Http.handle_post Examples.stW Examples.headersW (some Examples.reqListW)
        "fresh-id" 100).2 = .error 404 :=
  handle_post_session_404 Examples.stW Examples.headersW Examples.reqListW
    "fresh-id" "sess-1" 100 rfl (by decide) rfl
    (Or.inr rfl)

/-- C5 counterexample: a `tools/call` for `list_allowed_directories` whose
params carry *no* `arguments` member is answered with a successful protocol
response (its `error` component is `none`), not the protocol-level error the
claim requires for a missing arguments value. -/
theorem tools_call_missing_arguments_claim_false :
    Examples.reqMissingArgs.params.get "arguments" = none ∧
    Common.handle_request Examples.serverW Examples.reqMissingArgs =
      some (Common.JsonRpcResponse.success (some (.num 1))
        (Common.text_content "Allowed directories:\n/sandbox")) ∧
    (Common.JsonRpcResponse.success (some (Json.num 1))
        (Common.text_content "Allowed directories:\n/sandbox")).error = none := by
  refine ⟨rfl, ?_, rfl⟩
  rfl

/-- C5 amended: for a `tools/call` against the filesystem backend, a
structurally missing tool name is a protocol-level error; a missing
`arguments` value is replaced by the empty object before the tool runs (so
it is not by itself a protocol-level error); a tool name outside the
backend's tool set yields a *successful* protocol response whose payload
marks a tool-level error. -/
theorem tools_call_dispatch_amended :
    ∀ (eff : Filesystem.FsEffects) (version : String)
      (tools : List Common.McpTool) (id : Option Json) (params : Json),
      (jsonGetStr params "name" = none →
        Common.handle_request (Filesystem.server eff version tools)
          { jsonrpc := "2.0", id := id, method := "tools/call", params := params } =
          some (Common.JsonRpcResponse.internal_error id "Missing tool name")) ∧
      (∀ nm, jsonGetStr params "name" = some nm →
        params.get "arguments" = none →
        Common.handle_tools_call (Filesystem.server eff version tools) params =
          Filesystem.call_tool eff nm (Json.obj [])) ∧
      (∀ nm, jsonGetStr params "name" = some nm →
        nm ∉ Filesystem.toolNames →
        Common.handle_request (Filesystem.server eff version tools)
          { jsonrpc := "2.0", id := id, method := "tools/call", params := params } =
          some (Common.JsonRpcResponse.success id
            (Common.error_content ("Unknown tool: " ++ nm)))) := by
  intro eff version tools id params
  refine ⟨?_, ?_, ?_⟩
  · intro hname
    simp only [Common.handle_request, Common.handle_tools_call, hname]
    rfl
  · intro nm hname hargs
    simp only [Common.handle_tools_call, hname, hargs]
    rfl
  · intro nm hname hnotin
    simp only [Filesystem.toolNames, List.mem_cons, List.mem_singleton,
      not_or] at hnotin
    obtain ⟨h1, h2, h3, h4, h5, h6, h7, h8, h9, h10, h11, h12⟩ := hnotin
    simp only [Common.handle_request, Common.handle_tools_call, hname]
    simp [Filesystem.server, Filesystem.call_tool,
      h1, h2, h3, h4, h5, h6, h7, h8, h9, h10, h11, h12]

/-- C5 witness: a call with no tool name is answered with the protocol-level
internal error; a call naming the unknown tool `frobnicate` is answered with
a successful response whose payload is the tool-level error text. -/
theorem tools_call_dispatch_amended_witness :
    Common.handle_request Examples.serverW Examples.reqNoName =
      some (Common.JsonRpcResponse.internal_error (some (Json.num 2))
        "Missing tool name") ∧
    Common.handle_request Examples.serverW Examples.reqUnknownTool =
      some (Common.JsonRpcResponse.success (some (Json.num 4))
        (Common.error_content "Unknown tool: frobnicate")) :=
  ⟨(tools_call_dispatch_amended Examples.effW "0.0.0" [] (some (Json.num 2))
      Examples.reqNoName.params).1 rfl,
   (tools_call_dispatch_amended Examples.effW "0.0.0" [] (some (Json.num 4))
      Examples.reqUnknownTool.params).2.2 "frobnicate" rfl (by decide)⟩

/-- C7: the failing input for the TLS bootstrap claim — both cache files
present but a certificate whose validity window (0..100) has passed at
instant 1000: `load_or_generate` returns the cached, actually-expired
identity unchanged and performs no regeneration, because `is_cert_expired`
reports `false` for every certificate. -/
theorem tls_expired_cache_reused :
    Tls.load_or_generate Examples.tlsEnvW Examples.cacheW none none =
      .ok ({ cert_pem := Examples.expiredCert, key_pem := "cached-key",
             is_self_signed := true }, Examples.cacheW) ∧
    Tls.actuallyExpired Examples.expiredCert Examples.tlsEnvW.now ∧
    Tls.is_cert_expired Examples.expiredCert = false := by
  exact ⟨rfl, by unfold Tls.actuallyExpired; decide, rfl⟩

/-- Helper: "equal to or a descendant of a root" is exactly the
component-prefix test the code performs. -/
theorem equalOrDescendantOf_eq (c r : List String) :
    Filesystem.equalOrDescendantOf c r = r.isPrefixOf c := by
  simp only [Filesystem.equalOrDescendantOf]
  by_cases h : c = r
  · subst h
    simp [List.isPrefixOf_iff_prefix]
  · simp [beq_eq_false_iff_ne.2 h, bne, h]

/-- Helper: the spec-side containment test agrees with
`is_within_allowed`. -/
theorem any_equalOrDescendantOf (c : List String)
    (allowed : List (List String)) :
    allowed.any (Filesystem.equalOrDescendantOf c) =
      Filesystem.is_within_allowed c allowed := by
  unfold Filesystem.is_within_allowed
  congr 1
  funext r
  exact equalOrDescendantOf_eq c r

/-- C1 counterexample: with allowed root `/sandbox` (an existing
directory) and candidate `/sandbox/a/b` whose parent `/sandbox/a` does not
exist, the code rejects ("Parent directory does not exist") while the
claim's guard — which climbs to the nearest existing ancestor `/sandbox` —
accepts and returns the requested absolute path. -/
theorem validate_path_claim_false :
    Examples.rootsW ≠ [] ∧
    Filesystem.validate_path Examples.fsW Examples.pathW Examples.rootsW =
      .error "Parent directory does not exist" ∧
    Filesystem.validate_path_claim Examples.fsW Examples.pathW Examples.rootsW =
      .ok ["sandbox", "a", "b"] ∧
    ¬ Filesystem.agreesUpToError
        (Filesystem.validate_path Examples.fsW Examples.pathW Examples.rootsW)
        (Filesystem.validate_path_claim Examples.fsW Examples.pathW
          Examples.rootsW) := by
  refine ⟨by decide, rfl, rfl, ?_⟩
  exact fun h => h

/-- C1 amended: the code's guard agrees everywhere (accepting the same
path, or both rejecting) with the claim amended to consult only the
*immediate parent* of a missing target: accept an existing candidate iff
its canonical form is equal to or a descendant of some allowed root,
returning the canonical form; accept a missing candidate iff its immediate
parent exists and that parent's canonical form is contained, returning the
requested absolute path; reject when the parent is missing or the path has
no parent. -/
theorem validate_path_amended_correct :
    ∀ (w : Filesystem.FsWorld) (path : Filesystem.RPath)
      (allowed_dirs : List (List String)),
      Filesystem.agreesUpToError
        (Filesystem.validate_path w path allowed_dirs)
        (Filesystem.validate_path_amended w path allowed_dirs) := by
  intro w path allowed
  simp only [Filesystem.validate_path, Filesystem.validate_path_amended]
  by_cases hex : w.pathExists (Filesystem.absolutize w (Filesystem.expand_home w path)) = true
  · rw [if_pos hex, if_pos hex]
    rw [any_equalOrDescendantOf]
    by_cases hc : Filesystem.is_within_allowed
        (w.canon (Filesystem.absolutize w (Filesystem.expand_home w path))) allowed = true
    · rw [if_pos hc, if_pos hc]
      exact rfl
    · rw [if_neg hc, if_neg hc]
      exact trivial
  · rw [if_neg hex, if_neg hex]
    cases hp : Filesystem.pathParent
        (Filesystem.absolutize w (Filesystem.expand_home w path)) with
    | none => exact trivial
    | some parent =>
        dsimp only
        rw [any_equalOrDescendantOf]
        by_cases hpe : w.pathExists parent = true
        · rw [if_pos hpe]
          by_cases hpc : Filesystem.is_within_allowed (w.canon parent) allowed = true
          · rw [if_pos hpc, if_pos ⟨hpe, hpc⟩]
            exact rfl
          · rw [if_neg hpc, if_neg (fun hand => hpc hand.2)]
            exact trivial
        · rw [if_neg hpe, if_neg (fun hand => hpe hand.1)]
          exact trivial
